import Mathlib

/-!
Verification development for the node-modules-minimizer repository.

The repository determines, for a set of entrypoint source files, the set of
files reachable through import/require edges.  Its core is a module resolver
(src/resolver.ts), a dependency-graph scanner (src/scanner.ts) and a traversal
driver (src/index.ts).  This file gives a shallow embedding of those parts and
proves or refutes the frozen claims about them.

Conventions of the embedding:
  * Filesystem paths are strings, as in the source.  The Node `path` functions
    used by the code (`join`, `dirname`, `resolve`) are modelled for absolute
    POSIX paths in the namespace `NPath`; `Path.resolve` prepends the working
    directory for relative inputs, which is not modelled - every referencing
    path in this development is absolute.
  * The filesystem collaborator is a structure of three functions mirroring
    the `FileSystem` interface of resolver.ts (`lstatSync`, `realpathSync` and
    the composition of `readFileSync` with `JSON.parse`, here `readJson`).
    `statPath` in the source wraps `lstatSync` in try/catch, returning
    `undefined` on failure, hence `Option Stat` here.
  * JSON values are the inductive `JVal`; objects are association lists in
    declared (insertion) order, matching the enumeration order of
    `Object.entries` for the non-numeric keys that occur in package manifests.
  * Error classes: the source declares `ResolutionError` and
    `OptionalResolutionError`.  A thrown error is modelled by `ResErr`,
    whose `cls` field records the class of the constructed error object and
    whose `optionalVariant` field records whether the message carries the
    "not listed in dependencies or peerDependencies" suffix.
  * The `while (true)` ancestor walk in `findInNodeModules` does not terminate
    on every filesystem, so it takes explicit fuel; exhausted fuel is the
    `outOfFuel` result and is kept distinct from every outcome of the code.
-/

namespace StrOps

/-!
The string primitives the source relies on (`startsWith`, `endsWith`,
`splitOn "/"`, `dropRight`, `intercalate`) are re-implemented here by
structural recursion on the character list, with the same semantics as the
core library versions, so that every resolver run on a concrete input reduces
inside the kernel.
-/

/-- Split a character list at every occurrence of the separator; like
`String.splitOn` for a one-character separator, the result is never empty and
keeps empty pieces. -/
def splitChar (sep : Char) : List Char → List (List Char)
  | [] => [[]]
  | c :: rest =>
    match splitChar sep rest with
    | [] => [[c]]
    | h :: t => if c == sep then [] :: h :: t else (c :: h) :: t

/-- `String.splitOn "/"`. -/
def splitSlash (s : String) : List String :=
  (splitChar '/' s.data).map String.mk

/-- `String.startsWith`. -/
def strStartsWith (s pre : String) : Bool :=
  pre.data.isPrefixOf s.data

/-- `String.endsWith`. -/
def strEndsWith (s suf : String) : Bool :=
  suf.data.reverse.isPrefixOf s.data.reverse

/-- `String.dropRight`. -/
def strDropRight (s : String) (n : Nat) : String :=
  String.mk (s.data.take (s.data.length - n))

/-- `String.intercalate`. -/
def strIntercalate (sep : String) (l : List String) : String :=
  String.mk (List.intercalate sep.data (l.map String.data))

end StrOps

open StrOps

namespace NPath

/-- Split a path string on "/" and drop empty and "." segments, as the Node
path normalizer does. -/
def splitPath (s : String) : List String :=
  (splitSlash s).filter (fun c => !(c == "") && !(c == "."))

/-- Process ".." segments: each ".." removes the preceding segment, and at the
root it is dropped (Node: "/.." is "/"). -/
def normSegs (l : List String) : List String :=
  l.foldl (fun acc s => if s == ".." then acc.dropLast else acc ++ [s]) []

/-- Render an absolute path from its segments; the empty list is the root. -/
def segsToPath (l : List String) : String :=
  "/" ++ strIntercalate "/" l

/-- Node `Path.join a b` for an absolute `a`: concatenate and normalize. -/
def join (a b : String) : String :=
  segsToPath (normSegs (splitPath a ++ splitPath b))

/-- Node `Path.dirname` for absolute paths: drop the last segment;
the parent of the root is the root itself. -/
def dirname (s : String) : String :=
  segsToPath ((splitPath s).dropLast)

/-- Node `Path.resolve` for an absolute argument: normalization. -/
def resolve (s : String) : String :=
  segsToPath (normSegs (splitPath s))

end NPath

/-- Result of `lstatSync`, restricted to the three predicates the code calls. -/
structure Stat where
  isSymbolicLink : Bool
  isFile : Bool
  isDirectory : Bool
deriving DecidableEq, Repr

/-- JSON values; objects keep their fields in declared (insertion) order. -/
inductive JVal where
  | null
  | bool (b : Bool)
  | num (n : Int)
  | str (s : String)
  | arr (elems : List JVal)
  | obj (fields : List (String × JVal))

/-- First binding of a key in an object field list. -/
def lookupField (fields : List (String × JVal)) (key : String) : Option JVal :=
  match fields with
  | [] => none
  | (k, v) :: rest => if k == key then some v else lookupField rest key

/-- JavaScript member access `v[key]` for own fields of a parsed JSON object
(prototype-chain lookups never hit for manifest keys and are not modelled). -/
def JVal.getField : JVal → String → Option JVal
  | .obj fields, key => lookupField fields key
  | _, _ => none

/-- `hasKey(obj, key)` from resolver.ts: `typeof obj === "object" && obj && key in obj`. -/
def hasKey (v : JVal) (key : String) : Bool :=
  (v.getField key).isSome

/-- JavaScript truthiness of a JSON value. -/
def JVal.truthy : JVal → Bool
  | .null => false
  | .bool b => b
  | .num n => !(n == 0)
  | .str s => !(s == "")
  | .arr _ => true
  | .obj _ => true

/-- `typeof v === "object"` for a JSON value (null and arrays included). -/
def JVal.typeofObject : JVal → Bool
  | .null => true
  | .arr _ => true
  | .obj _ => true
  | _ => false

/-- The `FileSystem` interface of resolver.ts.  `readJson` is the composition
of `readFileSync(path, "utf8")` with `JSON.parse`; the code only applies it to
paths whose existence `hasFile` has confirmed. -/
structure FileSystem where
  lstatSync : String → Option Stat
  realpathSync : String → String
  readJson : String → JVal

/-- `statPath` from resolver.ts: `lstatSync` with its exception turned into
an absent value. -/
def statPath (path : String) (fs : FileSystem) : Option Stat :=
  fs.lstatSync path

/-- `hasFile` from resolver.ts. -/
def hasFile (path : String) (fs : FileSystem) : Bool :=
  (statPath path fs).isSome

/-- The `File` entries returned by the resolver. -/
structure File where
  path : String
  isFile : Bool
deriving DecidableEq, Repr

/-- The class of the error object a resolver failure throws. -/
inductive ErrClass where
  | ResolutionError
  | OptionalResolutionError
deriving DecidableEq, Repr

/-- A thrown resolver error: the class of the constructed object, and whether
the message carries the ". But it's not listed in dependencies or
peerDependencies" suffix. -/
structure ResErr where
  cls : ErrClass
  optionalVariant : Bool
deriving DecidableEq, Repr

/-- `ResolverImpl.resolutionError`: `throw new ResolutionError(...)`. -/
def resolutionErrorVal : ResErr :=
  ⟨.ResolutionError, false⟩

/-- `ResolverImpl.optionalResolutionError` (resolver.ts): the method builds the
optional-variant message but constructs `new ResolutionError(...)`, not
`new OptionalResolutionError(...)`; the embedding mirrors that construction
verbatim. -/
def optionalResolutionErrorVal : ResErr :=
  ⟨.ResolutionError, true⟩

/-- The split of a bare specifier by the regex
`^(?<package>(?:@[^/]+\/[^/]+|[^/]+))(?:\/(?<path>.*))?`:
the package name together with the optional subpath group.  `none` is a failed
match (empty input or a leading "/"). -/
def matchModuleId (m : String) : Option (String × Option String) :=
  match splitSlash m with
  | [] => none
  | p0 :: rest =>
    if p0 == "" then
      none
    else if strStartsWith p0 "@" && !(p0 == "@") then
      match rest with
      | [] => some (p0, none)
      | p1 :: rest2 =>
        if p1 == "" then
          some (p0, some (strIntercalate "/" rest))
        else
          some (p0 ++ "/" ++ p1,
            if rest2.isEmpty then none else some (strIntercalate "/" rest2))
    else
      some (p0, if rest.isEmpty then none else some (strIntercalate "/" rest))

/-- JavaScript truthiness of the optional subpath group (`undefined` and the
empty string are both falsy). -/
def subpathTruthy : Option String → Bool
  | none => false
  | some s => !(s == "")

/-- Outcome of the `findInNodeModules` ancestor walk in
`ResolverImpl.resolvePackage` (resolver.ts): the `File` entries pushed for
traversed symlinks together with the returned path, the `resolutionError` exit
at the root, or exhaustion of the fuel bounding the `while (true)` loop. -/
inductive FindResult where
  | found (files : List File) (path : String)
  | failed
  | outOfFuel
deriving DecidableEq, Repr

/-- The `while (true)` body of `findInNodeModules`.  The loop state is the
probed `path`; `dir` is never reassigned by the loop, so its parent is
computed from the same `dir` on every iteration. -/
def findInNodeModulesGo (fs : FileSystem) (dir : String) (path : String)
    (files : List File) : Nat → FindResult
  | 0 => .outOfFuel
  | fuel + 1 =>
    match statPath path fs with
    | some st =>
      if st.isSymbolicLink then
        let files2 := files ++ [⟨path, false⟩]
        let path2 := fs.realpathSync path
        match statPath path2 fs with
        | some _ => .found files2 path2
        | none =>
          let parent := NPath.dirname dir
          if parent == dir then .failed
          else findInNodeModulesGo fs dir parent files2 fuel
      else
        .found files path
    | none =>
      let parent := NPath.dirname dir
      if parent == dir then .failed
      else findInNodeModulesGo fs dir parent files fuel

/-- `findInNodeModules(moduleId, dir)` from `ResolverImpl.resolvePackage`:
the initial probe is `Path.join(dir, "node_modules", moduleId)`, then the loop
runs. -/
def findInNodeModules (fs : FileSystem) (moduleId : String) (dir : String)
    (fuel : Nat) : FindResult :=
  findInNodeModulesGo fs dir (NPath.join (NPath.join dir "node_modules") moduleId) [] fuel

/-- The upward `while (true)` walk of `readPackageJson` (resolver.ts).  This
loop always terminates because `dirname` strictly shortens the segment list
until the root, where `parent === directory` returns the absent pair; the
recursion is bounded by a segment count that dominates the walk length. -/
def readPackageJsonGo (fs : FileSystem) (directory : String) : Nat → Option (String × JVal)
  | 0 => none
  | fuel + 1 =>
    let packageJsonPath := NPath.join directory "package.json"
    if hasFile packageJsonPath fs then
      some (packageJsonPath, fs.readJson packageJsonPath)
    else
      let parent := NPath.dirname directory
      if parent == directory then none
      else readPackageJsonGo fs parent fuel

/-- `readPackageJson(path, fs)` from resolver.ts: start at the path itself, or
at its directory when the path is a regular file, and walk upward to the
nearest package.json.  The absent result is the `[undefined, undefined]`
return at the root. -/
def readPackageJson (path : String) (fs : FileSystem) : Option (String × JVal) :=
  let directory :=
    match statPath path fs with
    | some st => if st.isFile then NPath.dirname path else path
    | none => path
  readPackageJsonGo fs directory ((NPath.splitPath directory).length + 2)

/-- The loop body of `ResolverImpl.resolveFile(moduleId, base)` for one
candidate `testPath`: a regular-file hit returns its canonicalized real path
with `isFile` set; a directory probes its index.js.  `resolveFile` below runs
it on the literal candidate and on the candidate with ".js" appended, then
falls back to the ".ts" rewrite for a `.ts` referencing source; `source` is
the resolver field `this.source`. -/
def probeCandidate (fs : FileSystem) (testPath : String) : Option File :=
  match statPath testPath fs with
  | some st =>
    if st.isFile then
      some ⟨fs.realpathSync (NPath.resolve testPath), true⟩
    else if st.isDirectory then
      let indexPath := NPath.join testPath "index.js"
      if hasFile indexPath fs then
        some ⟨fs.realpathSync (NPath.resolve indexPath), true⟩
      else none
    else none
  | none => none

/-- The candidate dispatch of `resolveFile`: the literal candidate, then the
candidate with ".js" appended, then the ".ts" rewrite for a `.ts` referencing
source. -/
def resolveFile (fs : FileSystem) (source : String) (moduleId : String)
    (base : String) : Option File :=
  let path := if strStartsWith moduleId "/" then moduleId else NPath.join base moduleId
  match probeCandidate fs path with
  | some f => some f
  | none =>
    match probeCandidate fs (path ++ ".js") with
    | some f => some f
    | none =>
      if strEndsWith source ".ts" then
        let tsModuleId :=
          if strEndsWith moduleId ".js" then strDropRight moduleId 3 ++ ".ts" else moduleId
        let tsPath :=
          if strStartsWith tsModuleId "/" then tsModuleId else NPath.join base tsModuleId
        if hasFile tsPath fs then
          some ⟨fs.realpathSync (NPath.resolve tsPath), true⟩
        else none
      else none

/-- The condition-selection loop of `ResolverImpl.resolveExportMap`: scan the
entries of the object in declared order; at the first entry whose key is
"default" take the object's "default" member, at the first entry whose key is
"import" take its "import" member, and `break`; any other key is skipped.
`all` is the full field list of the object being indexed. -/
def condLoop (all : List (String × JVal)) : List (String × JVal) → Option JVal
  | [] => none
  | (k, _) :: rest =>
    if k == "default" then lookupField all "default"
    else if k == "import" then lookupField all "import"
    else condLoop all rest

/-- The condition-selection stage of `resolveExportMap`: when the working
value is an object, run `condLoop` over its entries; the working value is left
unchanged when no recognized key occurs (and for non-objects; for an array the
loop would only see numeric keys and change nothing). -/
def selectCondition : JVal → JVal
  | .obj fields => (condLoop fields fields).getD (.obj fields)
  | v => v

/-- `ResolverImpl.resolveExportMap(packagePath, exportMap, packageImportPath)`:
first replace the working value by the subpath entry (key "." or
"./<subpath>") when the map is an object containing it, then run the
condition-selection stage once, and finally resolve a string result against
the package root via `resolveFile`. -/
def resolveExportMap (fs : FileSystem) (source : String) (packagePath : String)
    (exportMap : JVal) (packageImportPath : Option String) : Option File :=
  let toResolve := exportMap
  let toResolve :=
    match toResolve with
    | .obj fields =>
      let importPath :=
        if subpathTruthy packageImportPath then "./" ++ packageImportPath.getD ""
        else "."
      match lookupField fields importPath with
      | some v => v
      | none => JVal.obj fields
    | v => v
  let toResolve := selectCondition toResolve
  match toResolve with
  | .str s => resolveFile fs source s packagePath
  | _ => none

/-- The tail of `ResolverImpl.resolvePackage` (resolver.ts): before raising
the hard error, look up the nearest package.json of the referencing file; when
it is found and truthy and the package name is in neither its `dependencies`
nor its `peerDependencies`, call `optionalResolutionError`, otherwise
`resolutionError`. -/
def dependencyFallback (fs : FileSystem) (source : String)
    (importPackageName : String) : Except ResErr (List File) :=
  match readPackageJson source fs with
  | some (_, sourcePackage) =>
    if sourcePackage.truthy then
      let isRequiredDependency :=
        match sourcePackage.getField "dependencies" with
        | some deps => hasKey deps importPackageName
        | none => false
      let isPeerDependency :=
        match sourcePackage.getField "peerDependencies" with
        | some deps => hasKey deps importPackageName
        | none => false
      if !isRequiredDependency && !isPeerDependency then
        .error optionalResolutionErrorVal
      else
        .error resolutionErrorVal
    else
      .error resolutionErrorVal
  | none => .error resolutionErrorVal

/-- The non-`exports` entry-point choice of `ResolverImpl.resolvePackage`:
the requested subpath if truthy, else a string `module` field, else a string
`main` field, else index.js, each joined to the package root. -/
def packageEntryPath (importPackagePath : String)
    (importPackageSubpath : Option String) (packageJson : JVal) : String :=
  if subpathTruthy importPackageSubpath then
    NPath.join importPackagePath (importPackageSubpath.getD "")
  else
    match packageJson.getField "module" with
    | some (.str m) => NPath.join importPackagePath m
    | _ =>
      match packageJson.getField "main" with
      | some (.str m) => NPath.join importPackagePath m
      | _ => NPath.join importPackagePath "index.js"

/-- The entry-point selection of `ResolverImpl.resolvePackage` after the
ancestor walk (continuation of the doc comment above `packageEntryPath`):
read the nearest package.json of the package root; when found and a truthy
object, push it as a non-file entry and choose the entry point.  When the
`exports` map yields no file, the local variable `path` still holds the
package.json path, so the subsequent `if (path)` probe runs `resolveFile` on
the package.json path itself; that branch is mirrored verbatim. -/
def resolvePackageEntry (fs : FileSystem) (source : String)
    (importPackageName : String) (importPackageSubpath : Option String)
    (files : List File) (importPackagePath : String) : Except ResErr (List File) :=
  match readPackageJson importPackagePath fs with
  | some (pjPath, packageJson) =>
    if packageJson.truthy && packageJson.typeofObject then
      if hasKey packageJson "exports" then
        match resolveExportMap fs source importPackagePath
            ((packageJson.getField "exports").getD .null) importPackageSubpath with
        | some f => .ok (files ++ [⟨pjPath, false⟩] ++ [f])
        | none =>
          match resolveFile fs source pjPath importPackagePath with
          | some f => .ok (files ++ [⟨pjPath, false⟩] ++ [f])
          | none => dependencyFallback fs source importPackageName
      else
        match resolveFile fs source
            (packageEntryPath importPackagePath importPackageSubpath packageJson)
            importPackagePath with
        | some f => .ok (files ++ [⟨pjPath, false⟩] ++ [f])
        | none => dependencyFallback fs source importPackageName
    else
      dependencyFallback fs source importPackageName
  | none => dependencyFallback fs source importPackageName

/-- `ResolverImpl.resolvePackage`: split the bare specifier, run the ancestor
walk from the referencing directory, then select the entry point.  The absent
result is exhaustion of the loop fuel; every other outcome is the value or
error the method produces. -/
def resolvePackage (fs : FileSystem) (moduleId source : String) (fuel : Nat) :
    Option (Except ResErr (List File)) :=
  match matchModuleId moduleId with
  | none => some (.error resolutionErrorVal)
  | some (importPackageName, importPackageSubpath) =>
    match findInNodeModules fs importPackageName (NPath.dirname source) fuel with
    | .outOfFuel => none
    | .failed => some (.error resolutionErrorVal)
    | .found files importPackagePath =>
      some (resolvePackageEntry fs source importPackageName importPackageSubpath
        files importPackagePath)

/-- The private `ResolverImpl.resolveModule` of resolver.ts (the
relative/absolute branch): `resolveFile` against the referencing directory or
`resolutionError`. -/
def resolveModuleRelative (fs : FileSystem) (moduleId source : String) :
    Except ResErr File :=
  match resolveFile fs source moduleId (NPath.dirname source) with
  | some file => .ok file
  | none => .error resolutionErrorVal

/-- `ResolverImpl.run`: dispatch on the specifier shape, then raise
`resolutionError` if the collected array is empty. -/
def resolverRun (fs : FileSystem) (moduleId source : String) (fuel : Nat) :
    Option (Except ResErr (List File)) :=
  let requiredFiles : Option (Except ResErr (List File)) :=
    if strStartsWith moduleId "." || strStartsWith moduleId "/" then
      some ((resolveModuleRelative fs moduleId source).map (fun f => [f]))
    else
      resolvePackage fs moduleId source fuel
  requiredFiles.map (fun r =>
    r.bind (fun files => if files.length == 0 then .error resolutionErrorVal else .ok files))

/-- The exported `resolveModule(moduleId, source, fs)` of resolver.ts: the
referencing path is resolved, then `ResolverImpl.run` executes. -/
def resolveModule (moduleId source : String) (fs : FileSystem) (fuel : Nat) :
    Option (Except ResErr (List File)) :=
  resolverRun fs moduleId (NPath.resolve source) fuel

/-- A regular-file stat. -/
def fileStat : Stat :=
  ⟨false, true, false⟩

/-- A directory stat. -/
def dirStat : Stat :=
  ⟨false, false, true⟩

/-- A symbolic-link stat. -/
def linkStat : Stat :=
  ⟨true, false, false⟩

/-- Build a concrete filesystem from association lists: lstat entries, symlink
targets for `realpathSync` (identity elsewhere), and parsed package.json
contents. -/
def FileSystem.ofLists (stats : List (String × Stat)) (links : List (String × String))
    (jsons : List (String × JVal)) : FileSystem where
  lstatSync := fun p => stats.lookup p
  realpathSync := fun p => (links.lookup p).getD p
  readJson := fun p => (jsons.lookup p).getD .null

/-!
## Scanner (src/scanner.ts, the `ScannerImpl` using `OptionalResolutionError`)

The scanner walks the syntax tree of one source file, extracts reference
sites, feeds the literal specifiers to the resolver, and collects files and
diagnostics in two insertion-ordered maps keyed by path.  The TypeScript
syntax tree is modelled by `TsNode`: the four reference-site kinds the
scanner recognizes, `ts.Block` nodes, and a catch-all for every other node
(whose children are visited).  The code decides whether a `require()` call is
optional by walking its parents up to the source file looking for a
`ts.Block`; in this top-down embedding that parent walk is the inherited
`inBlock` flag, set once traversal enters a `block` node.
-/

/-- The message of a scanner diagnostic: the non-literal-specifier message
("Ignoring import of ... Only static import paths are supported.") or the
ignored-optional-failure message ("Ignoring resolution error on dependency
... which is tagged as optional."), each carrying the source text of the
enclosing node. -/
inductive DiagMessage where
  | unsupportedNonLiteral (nodeText : String)
  | ignoredOptionalResolution (nodeText : String)
deriving DecidableEq, Repr

/-- `DiagnosticEntry` from scanner.ts. -/
structure DiagnosticEntry where
  file : String
  message : DiagMessage
deriving DecidableEq, Repr

/-- An argument or module-specifier expression: a literal (with its text, as
`ts.isLiteralExpression` plus `.text`) or any non-literal expression. -/
inductive TsExpr where
  | lit (text : String)
  | nonLit
deriving DecidableEq, Repr

mutual
/-- The syntax-tree abstraction consumed by `ScannerImpl.visitNode`: import
declarations (with the type-only flag), export declarations (with optional
module specifier), dynamic `import()` calls, `require()` calls (each site
carrying `node.getText()` and its first argument), `ts.Block` nodes, and all
other nodes, which are merely recursed into. -/
inductive TsNode where
  | importDecl (isTypeOnly : Bool) (moduleSpecifier : TsExpr) (text : String)
  | exportDecl (moduleSpecifier : Option TsExpr) (text : String)
  | importCall (arg : TsExpr) (text : String)
  | requireCall (arg : TsExpr) (text : String)
  | block (children : TsNodeList)
  | other (children : TsNodeList)

/-- A list of sibling nodes (mutual with `TsNode` for structural recursion). -/
inductive TsNodeList where
  | nil
  | cons (head : TsNode) (tail : TsNodeList)
end

/-- The scanner's collaborators: the source file name, the
`Module.isBuiltin` predicate, and the resolver call
`resolveModule(text, fileName, Fs)` as a function of the specifier text. -/
structure ScanEnv where
  fileName : String
  isBuiltin : String → Bool
  resolve : String → Except ResErr (List File)

/-- The two insertion-ordered maps owned by `ScannerImpl`. -/
structure ScanState where
  files : List (String × File)
  diagnostics : List (String × DiagnosticEntry)
deriving DecidableEq, Repr

/-- JavaScript `Map.prototype.set`: update in place when the key exists
(keeping its position), otherwise append. -/
def mapSet (m : List (String × α)) (k : String) (v : α) : List (String × α) :=
  if m.any (fun e => e.1 == k) then m.map (fun e => if e.1 == k then (k, v) else e)
  else m ++ [(k, v)]

/-- JavaScript `Map.prototype.has`. -/
def mapHas (m : List (String × α)) (k : String) : Bool :=
  m.any (fun e => e.1 == k)

/-- `ScannerImpl.addModuleToScan(node, expression, optional)`: non-literal
specifiers record a diagnostic only when none exists yet for the file; builtin
specifiers are skipped; otherwise the resolver runs, successes are merged into
the files map, and failures either record (overwrite) the optional-failure
diagnostic - when the site is optional or the error is an
`OptionalResolutionError` - or propagate. -/
def addModuleToScan (env : ScanEnv) (st : ScanState) (nodeText : String) :
    TsExpr → Bool → Except ResErr ScanState
  | .nonLit, _ =>
    if mapHas st.diagnostics env.fileName then .ok st
    else
      .ok { st with
        diagnostics := mapSet st.diagnostics env.fileName
          ⟨env.fileName, .unsupportedNonLiteral nodeText⟩ }
  | .lit text, optional =>
    if env.isBuiltin text then .ok st
    else
      match env.resolve text with
      | .ok resolved =>
        .ok { st with files := resolved.foldl (fun m f => mapSet m f.path f) st.files }
      | .error err =>
        if optional || err.cls == .OptionalResolutionError then
          .ok { st with
            diagnostics := mapSet st.diagnostics env.fileName
              ⟨env.fileName, .ignoredOptionalResolution nodeText⟩ }
        else
          .error err

mutual
/-- `ScannerImpl.visitNode`: type-only imports are skipped; import/export
declarations are non-optional sites; dynamic `import()` is always optional;
a `require()` is optional exactly when some ancestor (here: the inherited
flag) is a `ts.Block`; blocks and all other nodes recurse into their
children, a block setting the flag. -/
def visitNode (env : ScanEnv) (inBlock : Bool) (st : ScanState) :
    TsNode → Except ResErr ScanState
  | .importDecl isTypeOnly moduleSpecifier text =>
    if isTypeOnly then .ok st
    else addModuleToScan env st text moduleSpecifier false
  | .exportDecl none _ => .ok st
  | .exportDecl (some moduleSpecifier) text =>
    addModuleToScan env st text moduleSpecifier false
  | .importCall arg text => addModuleToScan env st text arg true
  | .requireCall arg text => addModuleToScan env st text arg inBlock
  | .block children => visitNodeList env true st children
  | .other children => visitNodeList env inBlock st children

/-- `ScannerImpl.visitNodeArray`: visit the nodes in order, stopping at the
first propagated error. -/
def visitNodeList (env : ScanEnv) (inBlock : Bool) (st : ScanState) :
    TsNodeList → Except ResErr ScanState
  | .nil => .ok st
  | .cons head tail =>
    match visitNode env inBlock st head with
    | .ok st2 => visitNodeList env inBlock st2 tail
    | .error e => .error e
end

/-- `ScannerImpl.run`: visit the source file's statements starting from empty
maps; the statement list itself is not inside any block. -/
def scannerRun (env : ScanEnv) (statements : TsNodeList) : Except ResErr ScanState :=
  visitNodeList env false ⟨[], []⟩ statements

/-!
## Traversal driver (`getImportedFiles`, src/index.ts)

The driver seeds a FIFO queue with the resolved entrypoints and loops:
dequeue, skip already-scanned paths, record the path in the `scannedFiles`
and `importedFiles` sets, and for `isFile` entries run the parser+scanner
(here the collaborator `scanFile : String → List File`) and enqueue its
results.  Diagnostics are printed and do not influence the traversal, so they
are dropped here.  The `trace` argument instruments the run with the ordered
list of paths the scanner was invoked on; the loop fuel bounds the number of
iterations, the absent result standing for fuel exhaustion. -/
def getImportedFilesLoop (scanFile : String → List File) :
    Nat → List File → List String → List String → List String →
    Option (List String × List String)
  | 0, _, _, _, _ => none
  | _ + 1, [], _, importedFiles, trace => some (importedFiles, trace)
  | fuel + 1, file :: rest, scannedFiles, importedFiles, trace =>
    if scannedFiles.contains file.path then
      getImportedFilesLoop scanFile fuel rest scannedFiles importedFiles trace
    else
      let scannedFiles2 := scannedFiles ++ [file.path]
      let importedFiles2 := importedFiles ++ [file.path]
      if file.isFile then
        getImportedFilesLoop scanFile fuel (rest ++ scanFile file.path)
          scannedFiles2 importedFiles2 (trace ++ [file.path])
      else
        getImportedFilesLoop scanFile fuel rest scannedFiles2 importedFiles2 trace

/-- `getImportedFiles(...entrypoints)`: run the loop from the resolved
entrypoint files with empty state. -/
def getImportedFiles (scanFile : String → List File) (filesToScan : List File)
    (fuel : Nat) : Option (List String × List String) :=
  getImportedFilesLoop scanFile fuel filesToScan [] [] []

/-!
## Concrete filesystems for the claims
-/

/-- Filesystem for claim C1: the package directory `/folder/node_modules/tool`
exists but offers no resolvable entry (no package.json of its own, no
index.js), and the referencing file's nearest package.json (`/folder`) lists
no dependencies at all. -/
def depCheckFs : FileSystem := .ofLists
  [("/folder", dirStat), ("/folder/node_modules", dirStat),
   ("/folder/node_modules/tool", dirStat),
   ("/folder/package.json", fileStat)]
  []
  [("/folder/package.json", .obj [])]

/-- Filesystem for claim C2: the referencing file lives in `/a/b`, no
`/a/b/node_modules/tool` exists, but the ancestor `/a` does contain a fully
resolvable `node_modules/tool` (package.json with a `main` that exists). -/
def walkFs : FileSystem := .ofLists
  [("/a", dirStat), ("/a/b", dirStat), ("/a/node_modules", dirStat),
   ("/a/node_modules/tool", dirStat),
   ("/a/node_modules/tool/package.json", fileStat),
   ("/a/node_modules/tool/index.js", fileStat)]
  []
  [("/a/node_modules/tool/package.json", .obj [("main", .str "index.js")])]

/-- Filesystem for claim C3: the package manifest has an `exports` field whose
target `./missing.js` does not exist, so Export-Map Resolution yields no
file. -/
def exportsFailFs : FileSystem := .ofLists
  [("/folder", dirStat), ("/folder/node_modules", dirStat),
   ("/folder/node_modules/tool", dirStat),
   ("/folder/node_modules/tool/package.json", fileStat)]
  []
  [("/folder/node_modules/tool/package.json", .obj [("exports", .str "./missing.js")])]

/-- Filesystem for claim C7, the repository's own "does resolve symbolic
links" test: `node_modules/tool` is a symlink to the sibling `tool@123`,
which contains only `index.js`; no package.json exists anywhere. -/
def symlinkFs : FileSystem := .ofLists
  [("/folder", dirStat), ("/folder/node_modules", dirStat),
   ("/folder/node_modules/tool", linkStat),
   ("/folder/node_modules/tool@123", dirStat),
   ("/folder/node_modules/tool@123/index.js", fileStat)]
  [("/folder/node_modules/tool", "/folder/node_modules/tool@123")]
  []

/-- C1: the claim states that a bare-specifier resolution failure whose target
package is listed in neither `dependencies` nor `peerDependencies` of the
referencing package raises an error of kind `OptionalResolutionError` and not
of kind `ResolutionError`.  The code takes exactly that branch
(`dependencyFallback` produces the optional-message variant), but the
`optionalResolutionError` method constructs `new ResolutionError(...)`, so
the thrown error's class is `ResolutionError`: the `OptionalResolutionError`
class the module declares is never thrown. -/
theorem c1_optional_error_thrown_with_resolution_class :
    resolveModule "tool" "/folder/file" depCheckFs 10 =
      some (.error ⟨.ResolutionError, true⟩) ∧
    dependencyFallback depCheckFs "/folder/file" "tool" =
      .error optionalResolutionErrorVal ∧
    optionalResolutionErrorVal.cls = .ResolutionError :=
  ⟨rfl, rfl, rfl⟩

/-- C2: the claim states that the ancestor walk only ever tests (and only
ever designates) paths of the form `<ancestorDir>/node_modules/<packageName>`.
On `walkFs` the walk's second iteration probes the bare parent directory
`/a` (the loop sets `path = parent` without appending `node_modules/tool` and
never advances `dir`), finds it, and designates `/a` itself as the package
root - a path equal to none of the three ancestor `node_modules` candidates -
so the overall resolution fails even though `/a/node_modules/tool` exists and
is resolvable. -/
theorem c2_ancestor_walk_designates_bare_parent_directory :
    findInNodeModules walkFs "tool" "/a/b" 10 = .found [] "/a" ∧
    "/a" ∉ ["/a/b/node_modules/tool", "/a/node_modules/tool", "/node_modules/tool"] ∧
    statPath "/a/node_modules/tool/index.js" walkFs = some fileStat ∧
    resolveModule "tool" "/a/b/file.js" walkFs 10 = some (.error resolutionErrorVal) :=
  ⟨rfl, by decide, rfl, rfl⟩

/-- C3: the claim states that when a package manifest has an `exports` field
and Export-Map Resolution yields no file, resolution raises a failure and in
particular returns no `isFile=true` entry.  On `exportsFailFs` the export map
indeed yields no file, but `resolvePackage` then runs the `if (path)` probe
with `path` still holding the package.json path, and returns the package.json
itself as an `isFile=true` entry instead of failing. -/
theorem c3_export_map_failure_returns_package_json_as_file :
    resolveExportMap exportsFailFs "/folder/file" "/folder/node_modules/tool"
      (.str "./missing.js") none = none ∧
    resolveModule "tool" "/folder/file" exportsFailFs 10 =
      some (.ok [⟨"/folder/node_modules/tool/package.json", false⟩,
                 ⟨"/folder/node_modules/tool/package.json", true⟩]) :=
  ⟨rfl, rfl⟩

/-- C7: the claim (and the repository's own "does resolve symbolic links"
test) states that the symlinked package root with only an `index.js` resolves
to the symlink entry followed by the real index.js file.  The current
`resolvePackage` resolves entries only through a package.json; since none
exists on `symlinkFs`, it raises `ResolutionError` instead of returning the
two entries the test asserts. -/
theorem c7_symlinked_package_without_manifest_fails :
    resolveModule "tool" "/folder/file" symlinkFs 10 =
      some (.error resolutionErrorVal) ∧
    (some (.error resolutionErrorVal) : Option (Except ResErr (List File))) ≠
      some (.ok [⟨"/folder/node_modules/tool", false⟩,
                 ⟨"/folder/node_modules/tool@123/index.js", true⟩]) :=
  ⟨rfl, by intro h; simp at h⟩

/-- Whichever way a condition goes, an error is not a success. -/
theorem ite_error_ne_ok {c : Prop} [Decidable c] (a b : ResErr) (y : List File) :
    (if c then Except.error a else Except.error b) ≠ Except.ok y := by
  split <;> simp

/-- Every exit of `dependencyFallback` is a thrown error. -/
theorem dependencyFallback_ne_ok (fs : FileSystem) (source name : String)
    (files : List File) : dependencyFallback fs source name ≠ .ok files := by
  intro h
  unfold dependencyFallback at h
  repeat' split at h
  all_goals first
  | exact absurd h (ite_error_ne_ok _ _ _)
  | simp at h

/-- Every successful exit of the entry-point selection appends a resolved
file, so the result list is non-empty. -/
theorem resolvePackageEntry_ok_nonempty (fs : FileSystem)
    (source name : String) (sub : Option String) (files : List File)
    (pkgPath : String) (out : List File)
    (h : resolvePackageEntry fs source name sub files pkgPath = .ok out) :
    out ≠ [] := by
  unfold resolvePackageEntry at h
  split at h
  · split at h
    · split at h
      · split at h
        · simp only [Except.ok.injEq] at h
          subst h
          simp
        · split at h
          · simp only [Except.ok.injEq] at h
            subst h
            simp
          · exact absurd h (dependencyFallback_ne_ok fs source name out)
      · split at h
        · simp only [Except.ok.injEq] at h
          subst h
          simp
        · exact absurd h (dependencyFallback_ne_ok fs source name out)
    · exact absurd h (dependencyFallback_ne_ok fs source name out)
  · exact absurd h (dependencyFallback_ne_ok fs source name out)

/-- Every successful exit of `resolvePackage` has a non-empty file list. -/
theorem resolvePackage_ok_nonempty (fs : FileSystem) (moduleId source : String)
    (fuel : Nat) (out : List File)
    (h : resolvePackage fs moduleId source fuel = some (.ok out)) :
    out ≠ [] := by
  unfold resolvePackage at h
  split at h
  · simp at h
  · split at h
    · simp at h
    · simp at h
    · simp only [Option.some.injEq] at h
      exact resolvePackageEntry_ok_nonempty _ _ _ _ _ _ _ h

/-- C10: whenever the resolver returns normally the file array is non-empty -
the relative/absolute branch wraps a single file, `resolvePackage` appends at
least one file before every successful return - so the empty-result check in
`ResolverImpl.run` never fires: the post-processing of the branch result is
the identity. -/
theorem c10_resolver_result_nonempty :
    (∀ (fs : FileSystem) (moduleId source : String) (fuel : Nat) (out : List File),
      resolvePackage fs moduleId source fuel = some (.ok out) → out ≠ []) ∧
    (∀ (fs : FileSystem) (moduleId source : String) (fuel : Nat) (out : List File),
      resolveModule moduleId source fs fuel = some (.ok out) → out ≠ []) ∧
    (∀ (fs : FileSystem) (moduleId source : String) (fuel : Nat),
      resolverRun fs moduleId source fuel =
        (if strStartsWith moduleId "." || strStartsWith moduleId "/" then
          some ((resolveModuleRelative fs moduleId source).map (fun f => [f]))
        else resolvePackage fs moduleId source fuel)) := by
  have hrun : ∀ (fs : FileSystem) (moduleId source : String) (fuel : Nat),
      resolverRun fs moduleId source fuel =
        (if strStartsWith moduleId "." || strStartsWith moduleId "/" then
          some ((resolveModuleRelative fs moduleId source).map (fun f => [f]))
        else resolvePackage fs moduleId source fuel) := by
    intro fs moduleId source fuel
    unfold resolverRun
    split
    · cases hrel : resolveModuleRelative fs moduleId source <;>
        simp [hrel, Except.map, Except.bind]
    · cases hpkg : resolvePackage fs moduleId source fuel with
      | none => simp
      | some r =>
        cases r with
        | error e => simp [Except.bind]
        | ok out =>
          have hne := resolvePackage_ok_nonempty fs moduleId source fuel out hpkg
          simp [Except.bind, List.length_eq_zero, hne]
  refine ⟨fun fs m s fuel out h => resolvePackage_ok_nonempty fs m s fuel out h,
          fun fs m s fuel out h => ?_, hrun⟩
  unfold resolveModule at h
  rw [hrun] at h
  split at h
  · cases hrel : resolveModuleRelative fs m (NPath.resolve s) <;>
      rw [hrel] at h <;> simp [Except.map] at h
    subst h
    simp
  · exact resolvePackage_ok_nonempty _ _ _ _ _ h

/-- Filesystem of the repository test "does resolve packages with package.json
main entry". -/
def mainEntryFs : FileSystem := .ofLists
  [("/folder", dirStat), ("/folder/node_modules", dirStat),
   ("/folder/node_modules/tool", dirStat),
   ("/folder/node_modules/tool/package.json", fileStat),
   ("/folder/node_modules/tool/dist", dirStat),
   ("/folder/node_modules/tool/dist/index.js", fileStat)]
  []
  [("/folder/node_modules/tool/package.json", .obj [("main", .str "dist/index.js")])]

/-- Witness for C10: its hypothesis discharged by a run of `resolvePackage`
that succeeds on the `main`-entry fixture. -/
theorem c10_resolver_result_nonempty_witness :
    [File.mk "/folder/node_modules/tool/package.json" false,
     File.mk "/folder/node_modules/tool/dist/index.js" true] ≠ ([] : List File) :=
  c10_resolver_result_nonempty.1 mainEntryFs "tool" "/folder/file" 10
    [File.mk "/folder/node_modules/tool/package.json" false,
     File.mk "/folder/node_modules/tool/dist/index.js" true] rfl

/-- The condition-selection loop picks the first entry with a recognized key:
when every recognized key looks up the same in `all` as in `rest` (which holds
whenever `rest` is a suffix of `all` whose dropped prefix has no recognized
keys), scanning `rest` returns the value of its first entry whose key is
"default" or "import". -/
theorem condLoop_find (all : List (String × JVal)) :
    ∀ rest : List (String × JVal),
      (∀ key, (key == "default" || key == "import") = true →
        lookupField all key = lookupField rest key) →
      condLoop all rest =
        (rest.find? (fun e => e.1 == "default" || e.1 == "import")).map Prod.snd := by
  intro rest
  induction rest with
  | nil => intro _; simp [condLoop]
  | cons head tail ih =>
    obtain ⟨k, v⟩ := head
    intro h
    by_cases hd : k = "default"
    · subst hd
      have hall : lookupField all "default" = some v := by
        rw [h "default" (by simp)]
        simp [lookupField]
      simp [condLoop, hall, List.find?]
    · by_cases hi : k = "import"
      · subst hi
        have hall : lookupField all "import" = some v := by
          rw [h "import" (by simp)]
          simp [lookupField]
        have hne : (("import" : String) == "default") = false := rfl
        simp [condLoop, hne, hall, List.find?]
      · have hk : ∀ key, (key == "default" || key == "import") = true →
            lookupField all key = lookupField tail key := by
          intro key hkey
          rw [h key hkey]
          have hkkey : (k == key) = false := by
            rcases Bool.or_eq_true_iff.mp hkey with h1 | h1
            · exact beq_eq_false_iff_ne.mpr (fun hc => hd (hc.trans (eq_of_beq h1)))
            · exact beq_eq_false_iff_ne.mpr (fun hc => hi (hc.trans (eq_of_beq h1)))
          simp [lookupField, hkkey]
        have hnd : (k == "default") = false := beq_eq_false_iff_ne.mpr hd
        have hni : (k == "import") = false := beq_eq_false_iff_ne.mpr hi
        simp [condLoop, hnd, hni, List.find?, ih hk]

/-- C5: the condition-selection stage of Export-Map Resolution selects the
value of the first entry in declared (insertion) order whose key is "import"
or "default", skipping all other keys; in particular a conditional export map
`{import: A, default: B}` resolves `A` and `{default: A, import: B}` also
resolves `A` - the first declared recognized key wins, not a fixed condition
priority. -/
theorem c5_first_declared_condition_key_wins :
    (∀ fields : List (String × JVal),
      selectCondition (.obj fields) =
        (((fields.find? (fun e => e.1 == "default" || e.1 == "import")).map
          Prod.snd).getD (.obj fields))) ∧
    (∀ (fs : FileSystem) (source pkg : String) (a b : String),
      resolveExportMap fs source pkg
          (.obj [("import", .str a), ("default", .str b)]) none =
        resolveFile fs source a pkg ∧
      resolveExportMap fs source pkg
          (.obj [("default", .str a), ("import", .str b)]) none =
        resolveFile fs source a pkg) := by
  constructor
  · intro fields
    simp only [selectCondition]
    rw [condLoop_find fields fields (fun _ _ => rfl)]
  · intro fs source pkg a b
    exact ⟨rfl, rfl⟩

/-- Filesystem for the C4 counterexample: the literal candidate is a
directory containing an index.js, while the ".js"-suffixed candidate is a
regular file. -/
def dirIndexFs : FileSystem := .ofLists
  [("/folder", dirStat), ("/folder/other", dirStat),
   ("/folder/other/index.js", fileStat), ("/folder/other.js", fileStat)]
  [] []

/-- Counterexample to C4 as stated: for specifier "./other" from
"/folder/file" the literal candidate "/folder/other" is not a regular file
and "/folder/other.js" is, so the claim predicts the single result
realpath("/folder/other.js"); the code instead returns the directory's
index.js, because a directory containing an index.js is probed before the
".js"-suffixed candidate. -/
theorem c4_counterexample_directory_index_beats_js_candidate :
    NPath.join (NPath.dirname (NPath.resolve "/folder/file")) "./other" =
      "/folder/other" ∧
    (statPath "/folder/other" dirIndexFs).map Stat.isFile = some false ∧
    (statPath "/folder/other.js" dirIndexFs).map Stat.isFile = some true ∧
    dirIndexFs.realpathSync (NPath.resolve "/folder/other.js") = "/folder/other.js" ∧
    resolveModule "./other" "/folder/file" dirIndexFs 10 =
      some (.ok [⟨"/folder/other/index.js", true⟩]) ∧
    (⟨"/folder/other/index.js", true⟩ : File) ≠ ⟨"/folder/other.js", true⟩ :=
  ⟨rfl, rfl, rfl, rfl, rfl, by decide⟩

/-- A character list beginning with "." does not begin with "/". -/
theorem isPrefixOf_dot_not_slash (l : List Char)
    (h : List.isPrefixOf ['.'] l = true) : List.isPrefixOf ['/'] l = false := by
  cases l with
  | nil => simp [List.isPrefixOf] at h
  | cons c cs =>
    simp [List.isPrefixOf] at h ⊢
    intro hc
    rw [← hc] at h
    exact absurd h (by decide)

/-- A specifier beginning with "." does not begin with "/". -/
theorem startsWith_dot_not_slash (s : String) (h : strStartsWith s "." = true) :
    strStartsWith s "/" = false := by
  unfold strStartsWith at h ⊢
  rw [show (".".data) = ['.'] from rfl] at h
  rw [show ("/".data) = ['/'] from rfl]
  exact isPrefixOf_dot_not_slash s.data h

/-- C4 (amended): for every relative specifier `s` and referencing file `f`,
with candidate `c = dirname(f) + s`: if `c` is a regular file, resolution
returns exactly one File - the canonicalized real path of `c` with
`isFile = true`; otherwise, if `c` is a directory containing an index.js
entry, resolution returns exactly one File for that index.js; otherwise, if
`c + ".js"` is a regular file, resolution returns exactly one File - the
canonicalized real path of `c + ".js"` with `isFile = true`. -/
theorem c4_amended_relative_probe_order :
    (∀ (fs : FileSystem) (s f : String) (fuel : Nat) (st : Stat),
      strStartsWith s "." = true →
      statPath (NPath.join (NPath.dirname (NPath.resolve f)) s) fs = some st →
      st.isFile = true →
      resolveModule s f fs fuel =
        some (.ok [⟨fs.realpathSync (NPath.resolve
          (NPath.join (NPath.dirname (NPath.resolve f)) s)), true⟩])) ∧
    (∀ (fs : FileSystem) (s f : String) (fuel : Nat) (st : Stat),
      strStartsWith s "." = true →
      statPath (NPath.join (NPath.dirname (NPath.resolve f)) s) fs = some st →
      st.isFile = false →
      st.isDirectory = true →
      hasFile (NPath.join (NPath.join (NPath.dirname (NPath.resolve f)) s)
        "index.js") fs = true →
      resolveModule s f fs fuel =
        some (.ok [⟨fs.realpathSync (NPath.resolve
          (NPath.join (NPath.join (NPath.dirname (NPath.resolve f)) s)
            "index.js")), true⟩])) ∧
    (∀ (fs : FileSystem) (s f : String) (fuel : Nat) (st2 : Stat),
      strStartsWith s "." = true →
      (statPath (NPath.join (NPath.dirname (NPath.resolve f)) s) fs = none ∨
        (∃ st, statPath (NPath.join (NPath.dirname (NPath.resolve f)) s) fs = some st ∧
          st.isFile = false ∧
          (st.isDirectory = false ∨
            hasFile (NPath.join (NPath.join (NPath.dirname (NPath.resolve f)) s)
              "index.js") fs = false))) →
      statPath (NPath.join (NPath.dirname (NPath.resolve f)) s ++ ".js") fs = some st2 →
      st2.isFile = true →
      resolveModule s f fs fuel =
        some (.ok [⟨fs.realpathSync (NPath.resolve
          (NPath.join (NPath.dirname (NPath.resolve f)) s ++ ".js")), true⟩])) := by
  refine ⟨?_, ?_, ?_⟩
  · intro fs s f fuel st hdot hstat hfile
    have hns := startsWith_dot_not_slash s hdot
    simp [resolveModule, resolverRun, resolveModuleRelative, resolveFile,
      probeCandidate, hdot, hns, hstat, hfile, Except.map, Except.bind]
  · intro fs s f fuel st hdot hstat hfile hdir hidx
    have hns := startsWith_dot_not_slash s hdot
    simp [resolveModule, resolverRun, resolveModuleRelative, resolveFile,
      probeCandidate, hdot, hns, hstat, hfile, hdir, hidx, Except.map, Except.bind]
  · intro fs s f fuel st2 hdot hfirst hjs hjsfile
    have hns := startsWith_dot_not_slash s hdot
    have hprobe : probeCandidate fs
        (NPath.join (NPath.dirname (NPath.resolve f)) s) = none := by
      rcases hfirst with hnone | ⟨st, hstat, hfile, hrest⟩
      · simp [probeCandidate, hnone]
      · rcases hrest with hdir | hidx
        · simp [probeCandidate, hstat, hfile, hdir]
        · simp [probeCandidate, hstat, hfile, hidx]
    simp only [resolveModule, resolverRun, resolveModuleRelative, resolveFile,
      hdot, hns, Bool.true_or, if_true, Bool.false_eq_true, if_false]
    rw [hprobe]
    simp [probeCandidate, hjs, hjsfile, Except.map, Except.bind]

/-- Filesystems for the C4 witness: a plain regular-file candidate, a
directory-with-index candidate, and a ".js"-only candidate. -/
def relFileFs : FileSystem := .ofLists [("/folder/module.js", fileStat)] [] []

/-- Directory-with-index fixture without a competing ".js" file. -/
def dirOnlyFs : FileSystem := .ofLists
  [("/folder", dirStat), ("/folder/other", dirStat),
   ("/folder/other/index.js", fileStat)]
  [] []

/-- Fixture where only the ".js"-suffixed candidate exists. -/
def jsOnlyFs : FileSystem := .ofLists
  [("/folder", dirStat), ("/folder/mod.js", fileStat)]
  [] []

/-- Witness for C4 (amended): all three branches instantiated on concrete
filesystems with every hypothesis discharged. -/
theorem c4_amended_relative_probe_order_witness :
    resolveModule "./module.js" "/folder/file" relFileFs 10 =
      some (.ok [⟨"/folder/module.js", true⟩]) ∧
    resolveModule "./other" "/folder/file" dirOnlyFs 10 =
      some (.ok [⟨"/folder/other/index.js", true⟩]) ∧
    resolveModule "./mod" "/folder/file" jsOnlyFs 10 =
      some (.ok [⟨"/folder/mod.js", true⟩]) :=
  ⟨c4_amended_relative_probe_order.1 relFileFs "./module.js" "/folder/file" 10
      fileStat rfl rfl rfl,
   c4_amended_relative_probe_order.2.1 dirOnlyFs "./other" "/folder/file" 10
      dirStat rfl rfl rfl rfl rfl,
   c4_amended_relative_probe_order.2.2 jsOnlyFs "./mod" "/folder/file" 10
      fileStat rfl (.inl rfl) rfl rfl⟩

/-- Scanner environment whose resolver fails every call with a plain
`ResolutionError`. -/
def failEnv : ScanEnv where
  fileName := "file.ts"
  isBuiltin := fun _ => false
  resolve := fun _ => .error resolutionErrorVal

/-- Source file for the C8 counterexample: a failing dynamic import followed
by a non-literal dynamic import. -/
def c8Statements : TsNodeList :=
  .cons (.importCall (.lit "./missing.js") "importOfMissing")
    (.cons (.importCall .nonLit "importOfDynamicExpr") .nil)

/-- Counterexample to C8 as stated: after the failing optional import records
a diagnostic, the later non-literal site would record a different diagnostic,
but the code keeps the earlier one (the non-literal branch records only when
no diagnostic exists yet), so a later diagnostic does not always overwrite an
earlier one. -/
theorem c8_counterexample_non_literal_does_not_overwrite :
    scannerRun failEnv c8Statements =
      .ok ⟨[], [("file.ts",
        ⟨"file.ts", .ignoredOptionalResolution "importOfMissing"⟩)]⟩ ∧
    DiagMessage.ignoredOptionalResolution "importOfMissing" ≠
      DiagMessage.unsupportedNonLiteral "importOfDynamicExpr" :=
  ⟨rfl, by decide⟩

/-- Setting the scanner's single diagnostic key on a map already bounded by
that key yields the singleton map for the key. -/
theorem mapSet_singleton_key (d : List (String × DiagnosticEntry)) (fn : String)
    (v : DiagnosticEntry)
    (h : d = [] ∨ ∃ e, d = [(fn, e)]) : mapSet d fn v = [(fn, v)] := by
  rcases h with h | ⟨e, h⟩ <;> subst h <;> simp [mapSet]

/-- One scanner step keeps the diagnostics map empty or a singleton at the
source file's key. -/
theorem addModuleToScan_diag_bounded (env : ScanEnv) (st : ScanState)
    (nodeText : String) (expression : TsExpr) (optional : Bool) (st' : ScanState)
    (h : addModuleToScan env st nodeText expression optional = .ok st')
    (hinv : st.diagnostics = [] ∨ ∃ e, st.diagnostics = [(env.fileName, e)]) :
    st'.diagnostics = [] ∨ ∃ e, st'.diagnostics = [(env.fileName, e)] := by
  cases expression with
  | nonLit =>
    simp only [addModuleToScan] at h
    split at h
    · simp only [Except.ok.injEq] at h
      subst h
      exact hinv
    · simp only [Except.ok.injEq] at h
      subst h
      exact .inr ⟨_, mapSet_singleton_key _ _ _ hinv⟩
  | lit text =>
    simp only [addModuleToScan] at h
    split at h
    · simp only [Except.ok.injEq] at h
      subst h
      exact hinv
    · split at h
      · simp only [Except.ok.injEq] at h
        subst h
        exact hinv
      · split at h
        · simp only [Except.ok.injEq] at h
          subst h
          exact .inr ⟨_, mapSet_singleton_key _ _ _ hinv⟩
        · simp at h

mutual
/-- The diagnostics map stays empty or a singleton at the source file's key
through any node visit. -/
theorem visitNode_diag_bounded (env : ScanEnv) (b : Bool) (st : ScanState)
    (n : TsNode) (st' : ScanState) (h : visitNode env b st n = .ok st')
    (hinv : st.diagnostics = [] ∨ ∃ e, st.diagnostics = [(env.fileName, e)]) :
    st'.diagnostics = [] ∨ ∃ e, st'.diagnostics = [(env.fileName, e)] := by
  cases n with
  | importDecl t spec text =>
    unfold visitNode at h
    split at h
    · simp only [Except.ok.injEq] at h
      subst h
      exact hinv
    · exact addModuleToScan_diag_bounded env st text spec false st' h hinv
  | exportDecl spec text =>
    cases spec with
    | none =>
      unfold visitNode at h
      simp only [Except.ok.injEq] at h
      subst h
      exact hinv
    | some sp =>
      unfold visitNode at h
      exact addModuleToScan_diag_bounded env st text sp false st' h hinv
  | importCall a text =>
    unfold visitNode at h
    exact addModuleToScan_diag_bounded env st text a true st' h hinv
  | requireCall a text =>
    unfold visitNode at h
    exact addModuleToScan_diag_bounded env st text a b st' h hinv
  | block cs =>
    unfold visitNode at h
    exact visitNodeList_diag_bounded env true st cs st' h hinv
  | other cs =>
    unfold visitNode at h
    exact visitNodeList_diag_bounded env b st cs st' h hinv

/-- The diagnostics map stays empty or a singleton at the source file's key
through any node-list visit. -/
theorem visitNodeList_diag_bounded (env : ScanEnv) (b : Bool) (st : ScanState)
    (l : TsNodeList) (st' : ScanState) (h : visitNodeList env b st l = .ok st')
    (hinv : st.diagnostics = [] ∨ ∃ e, st.diagnostics = [(env.fileName, e)]) :
    st'.diagnostics = [] ∨ ∃ e, st'.diagnostics = [(env.fileName, e)] := by
  cases l with
  | nil =>
    unfold visitNodeList at h
    simp only [Except.ok.injEq] at h
    subst h
    exact hinv
  | cons hd tl =>
    unfold visitNodeList at h
    cases hv : visitNode env b st hd with
    | ok st2 =>
      rw [hv] at h
      exact visitNodeList_diag_bounded env b st2 tl st' h
        (visitNode_diag_bounded env b st hd st2 hv hinv)
    | error e =>
      rw [hv] at h
      simp at h
end

/-- C8 (amended): at most one diagnostic is retained per file - the scanner
keys diagnostics by the source file's name, so a completed scan holds at most
one entry, and every retained entry is keyed by that file; a later
optional-resolution-failure diagnostic overwrites the retained one, while a
later non-literal-specifier diagnostic is recorded only when no diagnostic
exists yet (it never overwrites). -/
theorem c8_amended_diagnostics_keyed_and_overwrite :
    (∀ (env : ScanEnv) (statements : TsNodeList) (st' : ScanState),
      scannerRun env statements = .ok st' →
      st'.diagnostics.length ≤ 1 ∧ ∀ e ∈ st'.diagnostics, e.1 = env.fileName) ∧
    (∀ (env : ScanEnv) (st : ScanState) (d : DiagnosticEntry)
        (text spec : String) (err : ResErr) (optional : Bool),
      st.diagnostics = [(env.fileName, d)] →
      env.isBuiltin spec = false →
      env.resolve spec = .error err →
      (optional || err.cls == .OptionalResolutionError) = true →
      addModuleToScan env st text (.lit spec) optional =
        .ok { st with diagnostics :=
          [(env.fileName, ⟨env.fileName, .ignoredOptionalResolution text⟩)] }) ∧
    (∀ (env : ScanEnv) (st : ScanState) (d : DiagnosticEntry)
        (text : String) (optional : Bool),
      st.diagnostics = [(env.fileName, d)] →
      addModuleToScan env st text .nonLit optional = .ok st) := by
  refine ⟨?_, ?_, ?_⟩
  · intro env statements st' h
    have hb := visitNodeList_diag_bounded env false ⟨[], []⟩ statements st' h (.inl rfl)
    rcases hb with hb | ⟨e, hb⟩ <;> rw [hb] <;> simp
  · intro env st d text spec err optional hd hbuiltin hres hopt
    simp only [addModuleToScan]
    rw [hbuiltin, hres]
    simp only [Bool.false_eq_true, if_false, hopt, if_true]
    rw [mapSet_singleton_key _ _ _ (.inr ⟨d, hd⟩)]
  · intro env st d text optional hd
    simp only [addModuleToScan]
    have hh : mapHas st.diagnostics env.fileName = true := by
      rw [hd]
      simp [mapHas]
    rw [hh]
    simp

/-- Witness for C8 (amended): the three conjuncts instantiated - a completed
concrete scan with its diagnostic count, an overwriting optional-failure
step, and a kept earlier diagnostic at a non-literal step. -/
theorem c8_amended_diagnostics_keyed_and_overwrite_witness :
    ((ScanState.mk [] [("file.ts",
        ⟨"file.ts", DiagMessage.ignoredOptionalResolution "importOfMissing"⟩)]).diagnostics.length ≤ 1 ∧
      ∀ e ∈ (ScanState.mk [] [("file.ts",
        ⟨"file.ts", DiagMessage.ignoredOptionalResolution "importOfMissing"⟩)]).diagnostics,
        e.1 = failEnv.fileName) ∧
    addModuleToScan failEnv
        ⟨[], [("file.ts", ⟨"file.ts", DiagMessage.unsupportedNonLiteral "earlier"⟩)]⟩
        "requireOfMissing" (.lit "./missing.js") true =
      .ok ⟨[], [("file.ts",
        ⟨"file.ts", DiagMessage.ignoredOptionalResolution "requireOfMissing"⟩)]⟩ ∧
    addModuleToScan failEnv
        ⟨[], [("file.ts", ⟨"file.ts", DiagMessage.unsupportedNonLiteral "earlier"⟩)]⟩
        "importOfDynamicExpr" .nonLit false =
      .ok ⟨[], [("file.ts", ⟨"file.ts", DiagMessage.unsupportedNonLiteral "earlier"⟩)]⟩ :=
  ⟨c8_amended_diagnostics_keyed_and_overwrite.1 failEnv c8Statements _ rfl,
   c8_amended_diagnostics_keyed_and_overwrite.2.1 failEnv
     ⟨[], [("file.ts", ⟨"file.ts", DiagMessage.unsupportedNonLiteral "earlier"⟩)]⟩
     ⟨"file.ts", DiagMessage.unsupportedNonLiteral "earlier"⟩
     "requireOfMissing" "./missing.js" resolutionErrorVal true rfl rfl rfl rfl,
   c8_amended_diagnostics_keyed_and_overwrite.2.2 failEnv
     ⟨[], [("file.ts", ⟨"file.ts", DiagMessage.unsupportedNonLiteral "earlier"⟩)]⟩
     ⟨"file.ts", DiagMessage.unsupportedNonLiteral "earlier"⟩
     "importOfDynamicExpr" false rfl⟩

/-- Source file for the C6 counterexample: a `require()` of a missing module
inside a plain curly-brace block (for instance the body of an if statement or
a function - not an exception-handling construct), below one intermediate
non-block node. -/
def c6Statements : TsNodeList :=
  .cons (.other (.cons (.block
    (.cons (.requireCall (.lit "./missing.js") "requireOfMissing") .nil)) .nil)) .nil

/-- Counterexample to C6 as stated: the failing `require()` is not enclosed in
an exception-handling block and the thrown error is not an
`OptionalResolutionError`, so the claim demands propagation; the scanner
instead records the ignored-optional diagnostic and returns normally, because
its parent walk tests `ts.isBlock` - any curly-brace block - rather than
exception-handling constructs. -/
theorem c6_counterexample_require_in_plain_block_downgraded :
    scannerRun failEnv c6Statements =
      .ok ⟨[], [("file.ts",
        ⟨"file.ts", .ignoredOptionalResolution "requireOfMissing"⟩)]⟩ ∧
    resolutionErrorVal.cls ≠ ErrClass.OptionalResolutionError :=
  ⟨rfl, by decide⟩

/-- The scanner state with the ignored-optional-resolution diagnostic
recorded (overwriting) for the scanned file. -/
def withOptionalDiag (env : ScanEnv) (st : ScanState) (text : String) : ScanState :=
  { st with diagnostics :=
      mapSet st.diagnostics env.fileName ⟨env.fileName, .ignoredOptionalResolution text⟩ }

/-- C6 (amended): for a reference site whose resolution throws - if the site
is a dynamic `import()` call, or a `require()` call lexically enclosed in any
curly-brace block (the code tests `ts.isBlock` on the ancestors, not
exception-handling constructs specifically), or the thrown error is an
`OptionalResolutionError`, the scanner records (overwriting) the
ignored-optional diagnostic for the file and continues; for every other
failing site - a `require()` with no enclosing block, or a static
import/export declaration whose error is not an `OptionalResolutionError` -
the error propagates and aborts the scan. -/
theorem c6_amended_optional_site_downgrade :
    (∀ (env : ScanEnv) (st : ScanState) (b : Bool) (spec text : String) (err : ResErr),
      env.isBuiltin spec = false →
      env.resolve spec = .error err →
      visitNode env b st (.importCall (.lit spec) text) =
        .ok (withOptionalDiag env st text)) ∧
    (∀ (env : ScanEnv) (st : ScanState) (spec text : String) (err : ResErr),
      env.isBuiltin spec = false →
      env.resolve spec = .error err →
      visitNode env true st (.requireCall (.lit spec) text) =
        .ok (withOptionalDiag env st text)) ∧
    (∀ (env : ScanEnv) (st : ScanState) (b : Bool) (spec text : String) (err : ResErr),
      env.isBuiltin spec = false →
      env.resolve spec = .error err →
      err.cls = .OptionalResolutionError →
      visitNode env b st (.requireCall (.lit spec) text) =
        .ok (withOptionalDiag env st text) ∧
      visitNode env b st (.importDecl false (.lit spec) text) =
        .ok (withOptionalDiag env st text)) ∧
    (∀ (env : ScanEnv) (st : ScanState) (spec text : String) (err : ResErr),
      env.isBuiltin spec = false →
      env.resolve spec = .error err →
      err.cls ≠ .OptionalResolutionError →
      visitNode env false st (.requireCall (.lit spec) text) = .error err) ∧
    (∀ (env : ScanEnv) (st : ScanState) (b : Bool) (spec text : String) (err : ResErr),
      env.isBuiltin spec = false →
      env.resolve spec = .error err →
      err.cls ≠ .OptionalResolutionError →
      visitNode env b st (.importDecl false (.lit spec) text) = .error err ∧
      visitNode env b st (.exportDecl (some (.lit spec)) text) = .error err) := by
  refine ⟨?_, ?_, ?_, ?_, ?_⟩
  · intro env st b spec text err hb hr
    simp [visitNode, addModuleToScan, withOptionalDiag, hb, hr]
  · intro env st spec text err hb hr
    simp [visitNode, addModuleToScan, withOptionalDiag, hb, hr]
  · intro env st b spec text err hb hr hcls
    have hbeq : (err.cls == ErrClass.OptionalResolutionError) = true := by
      simp [hcls]
    constructor <;> simp [visitNode, addModuleToScan, withOptionalDiag, hb, hr, hbeq]
  · intro env st spec text err hb hr hcls
    have hbeq : (err.cls == ErrClass.OptionalResolutionError) = false :=
      beq_eq_false_iff_ne.mpr hcls
    simp [visitNode, addModuleToScan, hb, hr, hbeq]
  · intro env st b spec text err hb hr hcls
    have hbeq : (err.cls == ErrClass.OptionalResolutionError) = false :=
      beq_eq_false_iff_ne.mpr hcls
    constructor <;> simp [visitNode, addModuleToScan, hb, hr, hbeq]

/-- Scanner environment whose resolver fails every call with an
`OptionalResolutionError`-class error. -/
def optFailEnv : ScanEnv where
  fileName := "file.ts"
  isBuiltin := fun _ => false
  resolve := fun _ => .error ⟨.OptionalResolutionError, false⟩

/-- Witness for C6 (amended): each conjunct instantiated - a failing dynamic
import, a failing require inside a block, both optional-class-error sites, a
propagating top-level require, and propagating static import/export
declarations. -/
theorem c6_amended_optional_site_downgrade_witness :
    visitNode failEnv false ⟨[], []⟩ (.importCall (.lit "./missing.js") "importText") =
      .ok ⟨[], [("file.ts", ⟨"file.ts", .ignoredOptionalResolution "importText"⟩)]⟩ ∧
    visitNode failEnv true ⟨[], []⟩ (.requireCall (.lit "./missing.js") "requireText") =
      .ok ⟨[], [("file.ts", ⟨"file.ts", .ignoredOptionalResolution "requireText"⟩)]⟩ ∧
    (visitNode optFailEnv false ⟨[], []⟩ (.requireCall (.lit "./missing.js") "requireText") =
      .ok ⟨[], [("file.ts", ⟨"file.ts", .ignoredOptionalResolution "requireText"⟩)]⟩ ∧
     visitNode optFailEnv false ⟨[], []⟩ (.importDecl false (.lit "./missing.js") "importText") =
      .ok ⟨[], [("file.ts", ⟨"file.ts", .ignoredOptionalResolution "importText"⟩)]⟩) ∧
    visitNode failEnv false ⟨[], []⟩ (.requireCall (.lit "./missing.js") "requireText") =
      .error resolutionErrorVal ∧
    (visitNode failEnv false ⟨[], []⟩ (.importDecl false (.lit "./missing.js") "importText") =
      .error resolutionErrorVal ∧
     visitNode failEnv false ⟨[], []⟩ (.exportDecl (some (.lit "./missing.js")) "exportText") =
      .error resolutionErrorVal) := by
  refine ⟨?_, ?_, ⟨?_, ?_⟩, ?_, ⟨?_, ?_⟩⟩
  · exact c6_amended_optional_site_downgrade.1 failEnv ⟨[], []⟩ false
      "./missing.js" "importText" resolutionErrorVal rfl rfl
  · exact c6_amended_optional_site_downgrade.2.1 failEnv ⟨[], []⟩
      "./missing.js" "requireText" resolutionErrorVal rfl rfl
  · exact (c6_amended_optional_site_downgrade.2.2.1 optFailEnv ⟨[], []⟩ false
      "./missing.js" "requireText" ⟨.OptionalResolutionError, false⟩ rfl rfl rfl).1
  · exact (c6_amended_optional_site_downgrade.2.2.1 optFailEnv ⟨[], []⟩ false
      "./missing.js" "importText" ⟨.OptionalResolutionError, false⟩ rfl rfl rfl).2
  · exact c6_amended_optional_site_downgrade.2.2.2.1 failEnv ⟨[], []⟩
      "./missing.js" "requireText" resolutionErrorVal rfl rfl (by decide)
  · exact (c6_amended_optional_site_downgrade.2.2.2.2 failEnv ⟨[], []⟩ false
      "./missing.js" "importText" resolutionErrorVal rfl rfl (by decide)).1
  · exact (c6_amended_optional_site_downgrade.2.2.2.2 failEnv ⟨[], []⟩ false
      "./missing.js" "exportText" resolutionErrorVal rfl rfl (by decide)).2

/-- Invariant of the driver loop: when the visited list is duplicate-free and
the scan trace is a subsequence of it (and the imported list is the visited
list, as both are appended in lockstep), a completed run yields a
duplicate-free imported list and a duplicate-free scan trace. -/
theorem driverLoop_nodup (scanFile : String → List File) :
    ∀ (fuel : Nat) (queue : List File) (scanned trace imp tr : List String),
      scanned.Nodup → trace.Sublist scanned →
      getImportedFilesLoop scanFile fuel queue scanned scanned trace = some (imp, tr) →
      imp.Nodup ∧ tr.Nodup := by
  intro fuel
  induction fuel with
  | zero =>
    intro queue scanned trace imp tr _ _ h
    simp [getImportedFilesLoop] at h
  | succ n ih =>
    intro queue scanned trace imp tr hnd hsub h
    cases queue with
    | nil =>
      simp only [getImportedFilesLoop, Option.some.injEq, Prod.mk.injEq] at h
      obtain ⟨h1, h2⟩ := h
      subst h1
      subst h2
      exact ⟨hnd, hsub.nodup hnd⟩
    | cons f rest =>
      simp only [getImportedFilesLoop] at h
      split at h
      · exact ih rest scanned trace imp tr hnd hsub h
      · have hnotmem : f.path ∉ scanned := by
          intro hmem
          rename_i hc
          exact hc (List.elem_eq_true_of_mem hmem)
        have hnd2 : (scanned ++ [f.path]).Nodup := by
          simp [List.nodup_append, hnd, hnotmem]
        split at h
        · exact ih (rest ++ scanFile f.path) (scanned ++ [f.path])
            (trace ++ [f.path]) imp tr hnd2 (hsub.append (List.Sublist.refl _)) h
        · exact ih rest (scanned ++ [f.path]) trace imp tr hnd2
            (hsub.trans (List.sublist_append_left _ _)) h

/-- Sufficient fuel for the driver loop: when every scanned file's results
stay inside the finite universe `U` and each scan yields at most `B` files,
the loop completes within `queue.length + |unscanned部分| * (B+1)` steps. -/
theorem driverLoop_fuel (scanFile : String → List File) (U : Finset String)
    (B : Nat) (hscan : ∀ p f, f ∈ scanFile p → f.path ∈ U)
    (hbound : ∀ p, (scanFile p).length ≤ B) :
    ∀ (n : Nat) (queue : List File) (scanned imported trace : List String),
      (∀ f ∈ queue, f.path ∈ U) →
      queue.length + (U.filter (fun x => x ∉ scanned)).card * (B + 1) ≤ n →
      ∃ res, getImportedFilesLoop scanFile (n + 1) queue scanned imported trace = some res := by
  intro n
  induction n using Nat.strong_induction_on with
  | _ n ih =>
    intro queue scanned imported trace hq hm
    cases queue with
    | nil => exact ⟨(imported, trace), by simp [getImportedFilesLoop]⟩
    | cons f rest =>
      simp only [List.length_cons] at hm
      obtain ⟨n', rfl⟩ : ∃ n', n = n' + 1 := ⟨n - 1, by omega⟩
      by_cases hc : scanned.contains f.path
      · obtain ⟨res, hres⟩ := ih n' (by omega) rest scanned imported trace
          (fun g hg => hq g (List.mem_cons_of_mem f hg)) (by omega)
        refine ⟨res, ?_⟩
        simp only [getImportedFilesLoop, hc, if_true]
        exact hres
      · have hpU : f.path ∈ U := hq f (List.mem_cons_self f rest)
        have hpnot : f.path ∉ scanned := fun hmem => hc (List.elem_eq_true_of_mem hmem)
        have hsubset : U.filter (fun x => x ∉ (scanned ++ [f.path])) ⊆
            U.filter (fun x => x ∉ scanned) := by
          intro x hx
          obtain ⟨hxU, hxns⟩ := Finset.mem_filter.mp hx
          exact Finset.mem_filter.mpr ⟨hxU, fun hxs => hxns (List.mem_append_left _ hxs)⟩
        have hcard : (U.filter (fun x => x ∉ (scanned ++ [f.path]))).card + 1 ≤
            (U.filter (fun x => x ∉ scanned)).card := by
          have hss : U.filter (fun x => x ∉ (scanned ++ [f.path])) ⊂
              U.filter (fun x => x ∉ scanned) := by
            refine (Finset.ssubset_iff_of_subset hsubset).mpr
              ⟨f.path, Finset.mem_filter.mpr ⟨hpU, hpnot⟩, fun hmem => ?_⟩
            exact (Finset.mem_filter.mp hmem).2 (by simp)
          exact Finset.card_lt_card hss
        have hy : (U.filter (fun x => x ∉ (scanned ++ [f.path]))).card * (B + 1) + (B + 1) ≤
            (U.filter (fun x => x ∉ scanned)).card * (B + 1) := by
          rw [← Nat.succ_mul]
          exact Nat.mul_le_mul_right _ hcard
        by_cases hf : f.isFile
        · have hb := hbound f.path
          obtain ⟨res, hres⟩ := ih n' (by omega) (rest ++ scanFile f.path)
            (scanned ++ [f.path]) (imported ++ [f.path]) (trace ++ [f.path])
            (fun g hg => by
              rcases List.mem_append.mp hg with hg | hg
              · exact hq g (List.mem_cons_of_mem f hg)
              · exact hscan f.path g hg)
            (by
              have hlen : (rest ++ scanFile f.path).length ≤ rest.length + B := by
                simp only [List.length_append]
                omega
              omega)
          refine ⟨res, ?_⟩
          simp only [getImportedFilesLoop, hc, if_false, Bool.false_eq_true, hf, if_true]
          exact hres
        · obtain ⟨res, hres⟩ := ih n' (by omega) rest (scanned ++ [f.path])
            (imported ++ [f.path]) trace
            (fun g hg => hq g (List.mem_cons_of_mem f hg))
            (by
              have hle := Finset.card_le_card hsubset
              have hy2 : (U.filter (fun x => x ∉ (scanned ++ [f.path]))).card * (B + 1) ≤
                  (U.filter (fun x => x ∉ scanned)).card * (B + 1) :=
                Nat.mul_le_mul_right _ hle
              omega)
          refine ⟨res, ?_⟩
          simp only [getImportedFilesLoop, hc, hf, if_false, Bool.false_eq_true]
          exact hres

/-- The diamond dependency graph: two roots each import the same shared
file, which imports nothing. -/
def diamondScan : String → List File := fun p =>
  if p == "/a.js" then [⟨"/s.js", true⟩]
  else if p == "/b.js" then [⟨"/s.js", true⟩]
  else []

/-- C9: in the traversal driver every canonical path is visited and scanned at
most once - a completed run from empty state has a duplicate-free reachable
list and a duplicate-free scan trace; the loop terminates for every dependency
graph over a finite file universe (hence also for cyclic graphs); and on the
diamond graph the shared file appears exactly once in the reachable set and is
scanned exactly once. -/
theorem c9_driver_scans_each_path_once :
    (∀ (scanFile : String → List File) (fuel : Nat) (queue : List File)
        (imp tr : List String),
      getImportedFiles scanFile queue fuel = some (imp, tr) →
      imp.Nodup ∧ tr.Nodup) ∧
    (∀ (scanFile : String → List File) (U : Finset String) (B : Nat)
        (queue : List File),
      (∀ p f, f ∈ scanFile p → f.path ∈ U) →
      (∀ p, (scanFile p).length ≤ B) →
      (∀ f ∈ queue, f.path ∈ U) →
      ∃ fuel res, getImportedFiles scanFile queue fuel = some res) ∧
    (getImportedFiles diamondScan [⟨"/a.js", true⟩, ⟨"/b.js", true⟩] 10 =
      some (["/a.js", "/b.js", "/s.js"], ["/a.js", "/b.js", "/s.js"]) ∧
     List.count "/s.js" ["/a.js", "/b.js", "/s.js"] = 1) := by
  refine ⟨?_, ?_, rfl, by decide⟩
  · intro scanFile fuel queue imp tr h
    exact driverLoop_nodup scanFile fuel queue [] [] imp tr List.nodup_nil
      (List.Sublist.refl []) h
  · intro scanFile U B queue hscan hbound hq
    obtain ⟨res, hres⟩ := driverLoop_fuel scanFile U B hscan hbound
      (queue.length + (U.filter (fun x => x ∉ ([] : List String))).card * (B + 1))
      queue [] [] [] hq (Nat.le_refl _)
    exact ⟨_, res, hres⟩

/-- A two-file import cycle. -/
def cycleScan : String → List File := fun p =>
  if p == "/a.js" then [⟨"/b.js", true⟩]
  else if p == "/b.js" then [⟨"/a.js", true⟩]
  else []

/-- Witness for C9: the duplicate-freeness conjunct applied to the completed
diamond run, and the termination conjunct applied to a cyclic import graph
over the two-element universe. -/
theorem c9_driver_scans_each_path_once_witness :
    (["/a.js", "/b.js", "/s.js"].Nodup ∧ ["/a.js", "/b.js", "/s.js"].Nodup) ∧
    (∃ fuel res, getImportedFiles cycleScan [⟨"/a.js", true⟩] fuel = some res) :=
  ⟨c9_driver_scans_each_path_once.1 diamondScan 10
      [⟨"/a.js", true⟩, ⟨"/b.js", true⟩] ["/a.js", "/b.js", "/s.js"]
      ["/a.js", "/b.js", "/s.js"] rfl,
   c9_driver_scans_each_path_once.2.1 cycleScan {"/a.js", "/b.js"} 1
      [⟨"/a.js", true⟩]
      (by
        intro p f hf
        unfold cycleScan at hf
        split at hf
        · simp at hf
          simp [hf]
        · split at hf
          · simp at hf
            simp [hf]
          · simp at hf)
      (by
        intro p
        unfold cycleScan
        split
        · simp
        · split <;> simp)
      (by
        intro f hf
        simp at hf
        simp [hf])⟩
